import Mathlib

/-!
Verification of the elysia-logger core: a shallow embedding of the
Logger component (src/logger.ts), the request-outcome classifier and
HttpError set (src/index.ts, src/http-error.ts), together with proofs
about the formatting and classification behaviour.

JavaScript strings are modelled as Lean `String`; all string operations
used by the source (startsWith, slice, trim, replace-first, indexOf,
substring, toUpperCase) are embedded as explicit structural functions on
the character list so that every definition evaluates inside the kernel.
JavaScript truthiness on optional strings/booleans is modelled
explicitly ("" and `undefined` are falsy).  Host builtins
(JSON.parse, JSON.stringify, crypto.randomUUID, process.hrtime) are
external collaborators; they are modelled as explicit inputs or as
small concrete functions, documented at their definitions.
-/

/-- Character-list test: does `l` start with `p`? (embeds JS String.startsWith). -/
def startsWithL : List Char → List Char → Bool
  | _, [] => true
  | [], _ :: _ => false
  | c :: cs, p :: ps => c = p && startsWithL cs ps

/-- Embeds JS `s.startsWith(p)`. -/
def jsStartsWith (s p : String) : Bool := startsWithL s.data p.data

/-- Whitespace predicate used by the embedding of JS String.trim. -/
def isWs (c : Char) : Bool := c = ' ' || c = '\n' || c = '\t' || c = '\r'

/-- Embeds JS `s.trim()`: drop whitespace from both ends. -/
def jsTrim (s : String) : String :=
  ⟨((s.data.dropWhile isWs).reverse.dropWhile isWs).reverse⟩

/-- Embeds JS `s.slice(0, n)`. -/
def jsTake (s : String) (n : Nat) : String := ⟨s.data.take n⟩

/-- JS truthiness of an optional string: `undefined` and "" are falsy. -/
def optTruthy : Option String → Bool
  | some s => !s.data.isEmpty
  | none => false

/-- Embeds the JS idiom `a || b` on an optional string with a string default. -/
def strOr (a : Option String) (b : String) : String :=
  match a with
  | some s => if s.data.isEmpty then b else s
  | none => b

/-- Embeds the JS idiom `a || b` on two optional strings. -/
def jsOrStr (a b : Option String) : Option String := if optTruthy a then a else b

/-- Join a list of strings with a separator (embeds Array.prototype.join). -/
def intercalateStr (sep : String) : List String → String
  | [] => ""
  | [s] => s
  | s :: rest => s ++ sep ++ intercalateStr sep rest

/-- Decimal digit character for `d % 10`. -/
def digitCh (d : Nat) : Char := Char.ofNat (48 + d % 10)

/-- Fuelled digit expansion of a natural number, most significant first.
This embeds the host's number-to-string conversion on naturals. -/
def natDigitsCore : Nat → Nat → List Char
  | 0, _ => []
  | fuel + 1, n =>
    if n < 10 then [digitCh n]
    else natDigitsCore fuel (n / 10) ++ [digitCh (n % 10)]

/-- Decimal digits of `n` (fuel `n + 1` always suffices). -/
def natDigits (n : Nat) : List Char := natDigitsCore (n + 1) n

/-- Decimal string of a natural number. -/
def natStr (n : Nat) : String := ⟨natDigits n⟩

/-- Exactly-two-digit rendering of `n % 100`, used by the embedding of
`toFixed(2)` for the fractional part. -/
def frac2 (n : Nat) : List Char := [digitCh (n / 10 % 10), digitCh (n % 10)]

/-!
ANSI stripping.  src/logger.ts `stripAnsi` is
`str.replace(/\x1b\[[0-9;]*[a-zA-Z]/g, '')`.  The global replace scans
left to right; at each position the pattern matches ESC, '[', a maximal
run of digits/semicolons, then a single ASCII letter.  On a failed
match the scanner emits one character and retries at the next position;
since only ESC can begin a match, retrying inside the examined span
cannot succeed before the failing character itself.  The function below
implements exactly that scan, with fuel equal to the input length so
that it is structurally recursive and kernel-evaluable.
-/

/-- Parameter characters of the ANSI pattern: `[0-9;]`. -/
def isParamChar (c : Char) : Bool := c.isDigit || c = ';'

/-- ASCII letter test: the final character class `[a-zA-Z]` of the regex. -/
def isLetterAZ (c : Char) : Bool :=
  ('a' ≤ c && c ≤ 'z') || ('A' ≤ c && c ≤ 'Z')

/-- Drop a maximal leading run of `[0-9;]` characters. -/
def dropParams : List Char → List Char
  | [] => []
  | c :: cs => if isParamChar c then dropParams cs else c :: cs

/-- Fuelled scanner for the global regex replace of `stripAnsi`. -/
def stripCore : Nat → List Char → List Char
  | 0, l => l
  | fuel + 1, [] => []
  | fuel + 1, c :: cs =>
    if c = '\x1b' then
      match cs with
      | '[' :: rest =>
        match dropParams rest with
        | c2 :: rest2 =>
          if isLetterAZ c2 then stripCore fuel rest2
          else c :: stripCore fuel cs
        | [] => c :: stripCore fuel cs
      | _ => c :: stripCore fuel cs
    else c :: stripCore fuel cs

/-- Embeds `Logger.stripAnsi` from src/logger.ts. -/
def stripAnsi (s : String) : String := ⟨stripCore s.data.length s.data⟩

/-!
Duration rendering (src/index.ts onAfterHandle, lines 173-179).
`durationNs` is the bigint nanosecond difference of two hrtime marks;
`durationMs = Number(durationNs) / 1_000_000`.  We model the numeric
value exactly over the integer nanosecond input, and `toFixed`
round-half-up (the ES2023 `toFixed` rule: of two nearest candidates the
larger is chosen) as exact integer arithmetic.
-/

/-- Embeds the duration display rule of onAfterHandle:
`durationMs < 1 ? (durationMs*1000).toFixed(0) + "μs" : durationMs.toFixed(2) + "ms"`. -/
def formatDuration (ns : Nat) : String :=
  if ns < 1000000 then
    natStr ((ns + 500) / 1000) ++ "μs"
  else
    natStr ((ns + 5000) / 10000 / 100) ++ "." ++ (⟨frac2 ((ns + 5000) / 10000 % 100)⟩ : String) ++ "ms"

/-- Split a character list into its maximal leading digit run and the rest. -/
def takeDigits : List Char → List Char × List Char
  | [] => ([], [])
  | c :: cs =>
    if c.isDigit then (c :: (takeDigits cs).1, (takeDigits cs).2)
    else ([], c :: cs)

/-- Recognizer for the regex `/^\d+μs$/`. -/
def matchUs (s : String) : Bool :=
  match takeDigits s.data with
  | (_ :: _, ['μ', 's']) => true
  | _ => false

/-- Recognizer for the regex `/^\d+\.\d\x7b2\x7dms$/`: digits, a dot,
exactly two digits, then "ms". -/
def matchMs (s : String) : Bool :=
  match takeDigits s.data with
  | (_ :: _, ['.', a, b, 'm', 's']) => a.isDigit && b.isDigit
  | _ => false

/-!
The Logger component (src/logger.ts, first/authoritative variant).
A Logger instance holds its options plus the ambient process pid and the
module-level cached timestamp string (both host-supplied).  Each leveled
method produces a `LogOutput`: the list of strings written to the pretty
stream and the list of events actually emitted by the pino backend
after pino's own enabled/level gate.
-/

/-- Pino log levels with their numeric severities (trace 10 … fatal 60). -/
inductive PinoLevel
  | trace
  | debug
  | info
  | warn
  | error
  | fatal
deriving DecidableEq

/-- Numeric severity pino assigns to each level. -/
def PinoLevel.sev : PinoLevel → Nat
  | .trace => 10
  | .debug => 20
  | .info => 30
  | .warn => 40
  | .error => 50
  | .fatal => 60

/-- Transport option of the plugin: 'console' (pretty) or 'json'. -/
inductive Transport
  | console
  | json
deriving DecidableEq

/-- Configuration options (src/types.ts `LoggerOptions`); every field is
optional, `none` modelling an omitted option. -/
structure LoggerOptions where
  context : Option String := none
  enabled : Option Bool := none
  level : Option PinoLevel := none
  transport : Option Transport := none
  formatter : Option (String → String → Option String → String) := none
  autoLogging : Option Bool := none
  file : Option String := none
  logRequestStart : Option Bool := none
  logDetails : Option Bool := none
  logRequestId : Option Bool := none

/-- JS truthiness of `options.file` (an empty path string is falsy). -/
def fileTruthy (o : LoggerOptions) : Bool := optTruthy o.file

/-- Guard used by every leveled method:
`this.options.transport === 'json' || this.options.file`. -/
def structuredActive (o : LoggerOptions) : Bool :=
  o.transport = some Transport.json || fileTruthy o

/-- Pino constructor argument `enabled: options.enabled !== false`. -/
def pinoEnabled (o : LoggerOptions) : Bool := !(o.enabled = some false)

/-- Pino constructor argument `level: options.level || 'info'`. -/
def pinoThreshold (o : LoggerOptions) : PinoLevel := o.level.getD PinoLevel.info

/-- Pino emits a record iff the logger is enabled and the record's level
is at least the configured threshold. -/
def pinoGate (o : LoggerOptions) (lvl : PinoLevel) : Bool :=
  pinoEnabled o && Nat.ble (pinoThreshold o).sev lvl.sev

/-- Value in a structured payload: a string, or JS `undefined` (which the
backend's serializer drops). -/
inductive Pval
  | str (s : String)
  | undef
deriving DecidableEq

/-- Structured payload: the JS object literal passed to a pino method,
as an ordered key/value list. -/
abbrev Payload := List (String × Pval)

/-- One record emitted by the pino backend. -/
structure PinoEvent where
  level : PinoLevel
  payload : Payload
deriving DecidableEq

/-- Serialization of a payload: keys whose value is `undefined` are
dropped, as pino's stringifier does. -/
def serializePayload (p : Payload) : Payload :=
  p.filter fun kv => !(kv.2 = Pval.undef)

/-- Effect of one leveled Logger call: pretty-stream writes and emitted
pino records. -/
structure LogOutput where
  pretty : List String := []
  pino : List PinoEvent := []
deriving DecidableEq

/-- Records emitted for one payload handed to a pino method. -/
def pinoEmit (o : LoggerOptions) (lvl : PinoLevel) (p : Payload) : List PinoEvent :=
  if pinoGate o lvl then [⟨lvl, p⟩] else []

/-- ANSI codes pre-computed in `formatMessage` (src/logger.ts lines 65-73). -/
def ansiGreen : String := "\x1b[32m"

/-- Yellow ANSI code of the formatter's colour table. -/
def ansiYellow : String := "\x1b[33m"

/-- Red ANSI code of the formatter's colour table. -/
def ansiRed : String := "\x1b[31m"

/-- Magenta ANSI code of the formatter's colour table. -/
def ansiMagenta : String := "\x1b[35m"

/-- Cyan ANSI code of the formatter's colour table. -/
def ansiCyan : String := "\x1b[36m"

/-- Dim ANSI code of the formatter's colour table. -/
def ansiDim : String := "\x1b[2m"

/-- Reset ANSI code of the formatter's colour table. -/
def ansiReset : String := "\x1b[0m"

/-- Level-to-colour switch of `formatMessage`. -/
def levelColor (level : String) : String :=
  if level = "error" then ansiRed
  else if level = "warn" then ansiYellow
  else if level = "debug" then ansiMagenta
  else if level = "verbose" then ansiCyan
  else ansiGreen

/-- Embeds JS `level.toUpperCase()`. -/
def jsToUpper (s : String) : String := ⟨s.data.map Char.toUpper⟩

/-- A Logger instance: its options together with the host-ambient pid and
the module-level cached timestamp string. -/
structure Logger where
  options : LoggerOptions
  pid : Nat
  cachedTime : String

/-- Embeds `Logger.formatMessage`: delegate to a configured custom
formatter, else render the built-in colourized template. -/
def Logger.formatMessage (lg : Logger) (level message : String) (context : Option String) : String :=
  match lg.options.formatter with
  | some f => f level message (jsOrStr context lg.options.context)
  | none =>
    let ctx := strOr (jsOrStr context lg.options.context) "Elysia"
    ansiGreen ++ "[Elysia]" ++ ansiReset ++ " " ++ ansiDim ++ natStr lg.pid ++ "  -" ++ ansiReset
      ++ " " ++ ansiDim ++ lg.cachedTime ++ ansiReset ++ "   " ++ levelColor level
      ++ jsToUpper level ++ ansiReset ++ " " ++ ansiYellow ++ "[" ++ ctx ++ "]" ++ ansiReset
      ++ " " ++ message ++ "\n"

/-- Embeds `Logger.log` (info level). -/
def Logger.log (lg : Logger) (message : String) (context : Option String) : LogOutput :=
  let formatted := lg.formatMessage "info" message context
  if structuredActive lg.options then
    { pino := pinoEmit lg.options PinoLevel.info [("msg", Pval.str (jsTrim (stripAnsi formatted)))] }
  else
    { pretty := [formatted] }

/-- Embeds `Logger.error`: the payload carries the trace key, and on the
pretty path the trace (when present) is written as a second line. -/
def Logger.error (lg : Logger) (message : String) (trace : Option String) (context : Option String) : LogOutput :=
  let formatted := lg.formatMessage "error" message context
  if structuredActive lg.options then
    { pino := pinoEmit lg.options PinoLevel.error
        [("msg", Pval.str (jsTrim (stripAnsi formatted))),
         ("trace", trace.elim Pval.undef Pval.str)] }
  else
    { pretty := [formatted] ++ (match trace with | some t => [t ++ "\n"] | none => []) }

/-- Embeds `Logger.warn`. -/
def Logger.warn (lg : Logger) (message : String) (context : Option String) : LogOutput :=
  let formatted := lg.formatMessage "warn" message context
  if structuredActive lg.options then
    { pino := pinoEmit lg.options PinoLevel.warn [("msg", Pval.str (jsTrim (stripAnsi formatted)))] }
  else
    { pretty := [formatted] }

/-- Embeds `Logger.debug`. -/
def Logger.debug (lg : Logger) (message : String) (context : Option String) : LogOutput :=
  let formatted := lg.formatMessage "debug" message context
  if structuredActive lg.options then
    { pino := pinoEmit lg.options PinoLevel.debug [("msg", Pval.str (jsTrim (stripAnsi formatted)))] }
  else
    { pretty := [formatted] }

/-- Embeds `Logger.verbose`; note the structured path calls `pino.trace`. -/
def Logger.verbose (lg : Logger) (message : String) (context : Option String) : LogOutput :=
  let formatted := lg.formatMessage "verbose" message context
  if structuredActive lg.options then
    { pino := pinoEmit lg.options PinoLevel.trace [("msg", Pval.str (jsTrim (stripAnsi formatted)))] }
  else
    { pretty := [formatted] }

/-!
Request-lifecycle plugin (src/index.ts): pathname extraction, request
details, validation-error formatting, the HttpError variant set, and the
three hooks derive / onRequest / onAfterHandle plus the onError
classifier.
-/

/-- Embeds JS `s.substring(a, b)` (arguments are swapped when `a > b`,
and clamped to the string length). -/
def jsSubstring (s : String) (a b : Nat) : String :=
  ⟨(s.data.drop (min a b)).take (max a b - min a b)⟩

/-- First index at which `pat` occurs in `hay` (embeds JS `indexOf` for a
substring pattern; `none` models the JS result `-1`). -/
def idxOfSub : List Char → List Char → Option Nat
  | [], pat => if pat.isEmpty then some 0 else none
  | c :: cs, pat =>
    if startsWithL (c :: cs) pat then some 0
    else (idxOfSub cs pat).map (· + 1)

/-- Embeds `getPathname` (src/index.ts lines 22-30): pure string scan for
the path component of a full URL. -/
def getPathname (url : String) : String :=
  let l := url.data
  let pathEnd := match l.findIdx? (fun c => c = '?') with
    | some q => q
    | none => l.length
  match idxOfSub l [':', '/', '/'] with
  | none => url
  | some protocolEnd =>
    match (List.findIdx? (fun c => c = '/') (l.drop (protocolEnd + 3))).map (· + (protocolEnd + 3)) with
    | none => "/"
    | some pathStart => jsSubstring url pathStart pathEnd

/-- Embeds the JS idiom `store.pathname || getPathname(request.url)`. -/
def resolvePathname (storePathname : Option String) (url : String) : String :=
  match storePathname with
  | some s => if s.data.isEmpty then getPathname url else s
  | none => getPathname url

/-- Minimal JSON-like value used for request bodies and validation error
values (the source treats both as opaque `unknown`). -/
inductive Jval
  | str (s : String)
  | num (n : Int)
  | bool (b : Bool)
  | null
deriving DecidableEq

/-- One framework-supplied validation error entry
(`\x7bpath, summary?, message, value\x7d`). -/
structure VErr where
  path : String
  summary : Option String
  message : String
  value : Jval
deriving DecidableEq

/-- Remove the first '/' occurrence from a character list: the semantics
of JS `path.replace("/", "")` with a string (non-global) pattern. -/
def rmFirstSlashL : List Char → List Char
  | [] => []
  | c :: cs => if c = '/' then cs else c :: rmFirstSlashL cs

/-- Embeds `e.path.replace("/", "")` as used for display of field names. -/
def rmFirstSlash (s : String) : String := ⟨rmFirstSlashL s.data⟩

/-- Embeds the JS idiom `e.summary || e.message`. -/
def summaryOrMessage (e : VErr) : String := strOr e.summary e.message

/-- Embeds `formatValidationErrors` (src/index.ts lines 64-70). -/
def formatValidationErrors (errors : List VErr) : String :=
  intercalateStr ", " (errors.map fun e => rmFirstSlash e.path ++ ": " ++ summaryOrMessage e)

/-- One entry of the validation response `details` array. -/
structure ValidationDetail where
  field : String
  message : String
  value : Jval
deriving DecidableEq

/-- Body returned for a validation failure. -/
structure ValidationResponse where
  error : String
  message : String
  details : List ValidationDetail
deriving DecidableEq

/-- Embeds `buildValidationResponse` (src/index.ts lines 77-97). -/
def buildValidationResponse (errors : List VErr) : ValidationResponse :=
  let errorCount := errors.length
  { error := "Validation failed"
    message := "Request validation failed with " ++ natStr errorCount ++ " error"
      ++ (if errorCount > 1 then "s" else "")
    details := errors.map fun e =>
      { field := rmFirstSlash e.path, message := summaryOrMessage e, value := e.value } }

/-- Embeds the `HttpError` class (src/http-error.ts): an immutable
status/message pair. -/
structure HttpError where
  status : Nat
  message : String
deriving DecidableEq

/-- Embeds `HttpError.prototype.toJSON`: `\x7bstatus, message\x7d`. -/
def HttpError.toJSON (e : HttpError) : Nat × String := (e.status, e.message)

/-- Embeds the static factory `HttpError.NotFound` (the JS default
argument 'Not Found' is modelled by passing `none`). -/
def HttpError.NotFound (message : Option String) : HttpError :=
  ⟨404, message.getD "Not Found"⟩

/-- Embeds the static factory `HttpError.BadRequest`. -/
def HttpError.BadRequest (message : Option String) : HttpError :=
  ⟨400, message.getD "Bad Request"⟩

/-- Embeds the static factory `HttpError.InternalServerError`. -/
def HttpError.InternalServerError (message : Option String) : HttpError :=
  ⟨500, message.getD "Internal Server Error"⟩

/-- Shape extracted by `JSON.parse` from a validation error message:
only the `type` and `errors` fields are ever inspected by the
classifier.  `errorsField = some es` models a present array-valued
`errors` property (`Array.isArray` true); any non-array or absent
`errors` is `none`. -/
structure ParsedShape where
  typeField : Option String := none
  errorsField : Option (List VErr) := none
deriving DecidableEq

/-- The error value caught by `onError`, with the observable JS
properties the classifier reads.  `httpError` is `some h` exactly when
the value is an `instanceof HttpError` with that status and message.
`messageParse` is the result of the host builtin `JSON.parse` applied
to `message` (`none` models a parse that throws); it is consulted only
when `message` starts with a brace, exactly as in `parseErrorObject`. -/
structure JsError where
  message : Option String := none
  name : Option String := none
  stack : Option String := none
  typeField : Option String := none
  errorsField : Option (List VErr) := none
  httpError : Option HttpError := none
  messageParse : Option ParsedShape := none
deriving DecidableEq

/-- The caught error corresponding to a thrown `HttpError` instance:
`Error.message` is the constructor argument and `name` is "Error". -/
def JsError.ofHttpError (h : HttpError) : JsError :=
  { message := some h.message, name := some "Error", httpError := some h }

/-- Result of `parseErrorObject`: either the parsed JSON value of the
message, or the original error object. -/
inductive ParsedOrErr
  | parsed (p : ParsedShape)
  | original (e : JsError)

/-- Embeds `parseErrorObject` (src/index.ts lines 104-113): parse the
message when it looks like JSON, falling back to the original error. -/
def parseErrorObject (err : JsError) : ParsedOrErr :=
  match err.message with
  | some m =>
    if jsStartsWith m "\x7b" then
      match err.messageParse with
      | some p => ParsedOrErr.parsed p
      | none => ParsedOrErr.original err
    else ParsedOrErr.original err
  | none => ParsedOrErr.original err

/-- Property read `errorObj.type` on the result of `parseErrorObject`. -/
def ParsedOrErr.typeField : ParsedOrErr → Option String
  | .parsed p => p.typeField
  | .original e => e.typeField

/-- Property read `errorObj.errors` on the result of `parseErrorObject`. -/
def ParsedOrErr.errorsField : ParsedOrErr → Option (List VErr)
  | .parsed p => p.errorsField
  | .original e => e.errorsField

/-- One call made to the Logger by a lifecycle hook. -/
inductive LogCall
  | info (message : String) (context : String)
  | warn (message : String) (context : String)
  | error (message : String) (trace : Option String) (context : String)
deriving DecidableEq

/-- Classification result of `onError`: logger calls made, the status
written to `set.status`, and the returned response body. -/
inductive ErrResponse
  | validation (r : ValidationResponse)
  | http (status : Nat) (message : String)
deriving DecidableEq

/-- Observable outcome of one `onError` invocation. -/
structure ErrorOutcome where
  logs : List LogCall := []
  status : Option Nat := none
  body : Option ErrResponse := none
deriving DecidableEq

/-- Embeds the `onError` hook (src/index.ts lines 208-275).  The three
branches (validation, HttpError, generic) follow the source's
`if / else if / else` chain exactly; in particular when
`code === "VALIDATION"` but the parsed object fails the shape check,
the hook returns without logging or producing a body. -/
def onError (code : String) (err : JsError) (method url : String) (storePathname : Option String) : ErrorOutcome :=
  let pathname := resolvePathname storePathname url
  if code = "VALIDATION" then
    let errorObj := parseErrorObject err
    match errorObj.typeField, errorObj.errorsField with
    | some t, some errors =>
      if t = "validation" then
        let errorCount := errors.length
        let errorSummaries := formatValidationErrors errors
        { logs := [LogCall.warn
            (method ++ " " ++ pathname ++ " - Validation failed (" ++ natStr errorCount
              ++ " error" ++ (if errorCount > 1 then "s" else "") ++ "): " ++ errorSummaries)
            "ValidationError"]
          status := some 400
          body := some (ErrResponse.validation (buildValidationResponse errors)) }
      else {}
    | _, _ => {}
  else
    match err.httpError with
    | some he =>
      { logs := [LogCall.warn (method ++ " " ++ pathname ++ " - " ++ err.message.getD "") "HttpError"]
        status := some he.status
        body := some (ErrResponse.http he.toJSON.1 he.toJSON.2) }
    | none =>
      let msg := match err.message with
        | some m => if !jsStartsWith m "\x7b" then m else strOr err.name "Unknown error"
        | none => strOr err.name "Unknown error"
      { logs := [LogCall.error (method ++ " " ++ pathname ++ " - " ++ msg) err.stack "Exception"] }

/-!
Success-path hooks.  `derive` stamps the hrtime start mark and the
correlation id; `onRequest` optionally logs the request start;
`onAfterHandle` logs the completion with the measured duration and,
when `logDetails` is set, a JSON-serialized details object.
-/

/-- Embeds the `derive` decoration of `_requestId` (src/index.ts lines
133-139): `options.logRequestId === true ? crypto.randomUUID() :
undefined`.  The host's `crypto.randomUUID` is an input. -/
def deriveRequestId (o : LoggerOptions) (uuid : String) : Option String :=
  if o.logRequestId = some true then some uuid else none

/-- Embeds the shared snippet
`ctx._requestId ? "[" + ctx._requestId.slice(0, 8) + "] " : ""`
(JS truthiness: an empty id yields no prefix). -/
def requestInfo (requestId : Option String) : String :=
  match requestId with
  | some r => if r.data.isEmpty then "" else "[" ++ jsTake r 8 ++ "] "
  | none => ""

/-- Embeds the `onRequest` hook (src/index.ts lines 140-161): the start
log emitted when neither `autoLogging` nor `logRequestStart` is
`false`; `none` models a hook run that logs nothing. -/
def onRequest (o : LoggerOptions) (requestId : Option String) (method url : String) : Option LogCall :=
  if o.autoLogging ≠ some false ∧ o.logRequestStart ≠ some false then
    some (LogCall.info (requestInfo requestId ++ method ++ " " ++ getPathname url)
      (strOr o.context "Router"))
  else none

/-- Escape quotes and backslashes, the JSON.stringify string escapes
relevant to this model. -/
def escapeJsonStr (s : String) : String :=
  ⟨s.data.foldr (fun c acc =>
    if c = '"' then '\\' :: '"' :: acc
    else if c = '\\' then '\\' :: '\\' :: acc
    else c :: acc) []⟩

/-- Models the host `JSON.stringify` on the opaque values of this model. -/
def jvalToJson : Jval → String
  | .str s => "\"" ++ escapeJsonStr s ++ "\""
  | .num n => if n < 0 then "-" ++ natStr n.natAbs else natStr n.natAbs
  | .bool b => if b then "true" else "false"
  | .null => "null"

/-- Models `JSON.stringify` on a flat string-keyed map. -/
def pairsToJson (ps : List (String × String)) : String :=
  "\x7b" ++ intercalateStr ","
      (ps.map fun kv => "\"" ++ escapeJsonStr kv.1 ++ "\":\"" ++ escapeJsonStr kv.2 ++ "\"")
    ++ "\x7d"

/-- Request details object (src/types.ts `RequestDetails`). -/
structure RequestDetails where
  query : Option (List (String × String)) := none
  params : Option (List (String × String)) := none
  body : Option Jval := none
deriving DecidableEq

/-- Keys present on the details object (`Object.keys(details).length`). -/
def RequestDetails.keyCount (d : RequestDetails) : Nat :=
  (if d.query.isSome then 1 else 0) + (if d.params.isSome then 1 else 0)
    + (if d.body.isSome then 1 else 0)

/-- Models `JSON.stringify` on the details object, fields in insertion
order query, params, body. -/
def detailsToJson (d : RequestDetails) : String :=
  "\x7b" ++ intercalateStr ","
      ((match d.query with
        | some q => ["\"query\":" ++ pairsToJson q]
        | none => [])
      ++ (match d.params with
        | some p => ["\"params\":" ++ pairsToJson p]
        | none => [])
      ++ (match d.body with
        | some b => ["\"body\":" ++ jvalToJson b]
        | none => []))
    ++ "\x7d"

/-- The querystring part of a URL from the first '?' on, as `URL.search`
exposes it ("" when there is no '?'). -/
def urlSearch (url : String) : String :=
  match url.data.findIdx? (fun c => c = '?') with
  | some q => ⟨url.data.drop q⟩
  | none => ""

/-- Split a character list at a separator character. -/
def splitOnCh (sep : Char) : List Char → List (List Char)
  | [] => [[]]
  | c :: cs =>
    if c = sep then [] :: splitOnCh sep cs
    else match splitOnCh sep cs with
      | [] => [[c]]
      | p :: ps => (c :: p) :: ps

/-- Key/value of one `k=v` querystring piece. -/
def queryPiece (l : List Char) : String × String :=
  match l.findIdx? (fun c => c = '=') with
  | some i => (⟨l.take i⟩, ⟨l.drop (i + 1)⟩)
  | none => (⟨l⟩, "")

/-- Models `Object.fromEntries(url.searchParams)`: the key/value pairs of
the querystring after the '?' (empty pieces are skipped). -/
def queryPairs (url : String) : List (String × String) :=
  match (urlSearch url).data with
  | [] => []
  | _ :: rest => ((splitOnCh '&' rest).filter fun p => !p.isEmpty).map queryPiece

/-- Context handed to `onAfterHandle`: the request data plus the values
decorated by `derive` and `onRequest`. -/
structure AfterCtx where
  method : String
  url : String
  storePathname : Option String := none
  start : Option Nat := none
  requestId : Option String := none
  params : List (String × String) := []
  body : Option Jval := none
deriving DecidableEq

/-- Embeds `buildRequestDetails` (src/index.ts lines 38-57): query only
when `url.search` is nonempty, params only when at least one key,
body only when neither null nor undefined. -/
def buildRequestDetails (ctx : AfterCtx) : RequestDetails :=
  { query := if !(urlSearch ctx.url).data.isEmpty then some (queryPairs ctx.url) else none
    params := if ctx.params.length > 0 then some ctx.params else none
    body := ctx.body }

/-- The `detailsString` computed by `onAfterHandle` (src/index.ts lines
194-203): empty unless `logDetails` is truthy and the details object
has at least one key, in which case a space plus the JSON text. -/
def detailsString (o : LoggerOptions) (ctx : AfterCtx) : String :=
  if o.logDetails = some true then
    let details := buildRequestDetails ctx
    if details.keyCount > 0 then " " ++ detailsToJson details else ""
  else ""

/-- Picocolors yellow: open code 33, close code 39. -/
def pcYellow (s : String) : String := "\x1b[33m" ++ s ++ "\x1b[39m"

/-- JS truthiness of the bigint start mark (`!ctx._start`; `0n` is falsy). -/
def startTruthy : Option Nat → Bool
  | some n => !(n = 0)
  | none => false

/-- Embeds the `onAfterHandle` hook (src/index.ts lines 162-206); `now`
is the host's current hrtime value in nanoseconds. -/
def onAfterHandle (o : LoggerOptions) (ctx : AfterCtx) (now : Nat) : Option LogCall :=
  if o.autoLogging = some false ∨ !startTruthy ctx.start then none
  else
    let durationNs := now - ctx.start.getD 0
    let duration := formatDuration durationNs
    let reqInfo := requestInfo ctx.requestId
    let pathname := resolvePathname ctx.storePathname ctx.url
    let baseMessage := reqInfo ++ ctx.method ++ " " ++ pathname ++ " " ++ pcYellow ("+" ++ duration)
    some (LogCall.info (baseMessage ++ detailsString o ctx) (strOr o.context "Router"))

/-- All-characters-are-decimal-digits test. -/
def isDigitsL : List Char → Bool
  | [] => true
  | c :: cs => c.isDigit && isDigitsL cs

/-- True when the list is empty or its head is not a digit: the stop
condition of a maximal digit run. -/
def headNotDigit : List Char → Bool
  | [] => true
  | c :: _ => !c.isDigit

/-!
Helper lemmas: digit strings, the maximal-digit-run split, and the
behaviour of the ANSI scanner on escape-free input.
-/

theorem digitCh_isDigit (d : Nat) : (digitCh d).isDigit = true := by
  have h : d % 10 < 10 := Nat.mod_lt _ (by omega)
  unfold digitCh
  revert h
  generalize d % 10 = k
  intro h
  interval_cases k <;> decide

theorem isDigitsL_append (a b : List Char) :
    isDigitsL (a ++ b) = (isDigitsL a && isDigitsL b) := by
  induction a with
  | nil => simp [isDigitsL]
  | cons c cs ih => simp [isDigitsL, ih, Bool.and_assoc]

theorem natDigitsCore_digits (fuel n : Nat) : isDigitsL (natDigitsCore fuel n) = true := by
  induction fuel generalizing n with
  | zero => simp [natDigitsCore, isDigitsL]
  | succ f ih =>
    unfold natDigitsCore
    split
    · simp [isDigitsL, digitCh_isDigit]
    · simp [isDigitsL_append, ih, isDigitsL, digitCh_isDigit]

theorem natDigitsCore_ne_nil (fuel n : Nat) : natDigitsCore (fuel + 1) n ≠ [] := by
  unfold natDigitsCore
  split
  · simp
  · simp

theorem natDigits_ne_nil (n : Nat) : natDigits n ≠ [] := natDigitsCore_ne_nil n n

theorem natDigits_digits (n : Nat) : isDigitsL (natDigits n) = true := natDigitsCore_digits _ _

theorem takeDigits_split (ds r : List Char) (h1 : isDigitsL ds = true)
    (h2 : headNotDigit r = true) : takeDigits (ds ++ r) = (ds, r) := by
  induction ds with
  | nil =>
    cases r with
    | nil => rfl
    | cons c cs =>
      have hc : c.isDigit = false := by
        simpa [headNotDigit] using h2
      simp [takeDigits, hc]
  | cons c cs ih =>
    rw [isDigitsL, Bool.and_eq_true] at h1
    simp [takeDigits, h1.1, ih h1.2]

theorem matchUs_append (s : String) (h1 : isDigitsL s.data = true) (h0 : s.data ≠ []) :
    matchUs (s ++ "μs") = true := by
  unfold matchUs
  rw [String.data_append]
  rw [show ("μs" : String).data = ['μ', 's'] from rfl]
  rw [takeDigits_split s.data ['μ', 's'] h1 (by decide)]
  cases hd : s.data with
  | nil => exact absurd hd h0
  | cons c cs => rfl

theorem matchMs_append (s : String) (a b : Char) (h1 : isDigitsL s.data = true)
    (h0 : s.data ≠ []) (ha : a.isDigit = true) (hb : b.isDigit = true) :
    matchMs (s ++ "." ++ (⟨[a, b]⟩ : String) ++ "ms") = true := by
  unfold matchMs
  have hdata : (s ++ "." ++ (⟨[a, b]⟩ : String) ++ "ms").data
      = s.data ++ '.' :: a :: b :: 'm' :: 's' :: [] := by
    simp [String.data_append]
  rw [hdata, takeDigits_split s.data _ h1 (by simp [headNotDigit])]
  cases hd : s.data with
  | nil => exact absurd hd h0
  | cons c cs => simp [ha, hb]

theorem stripCore_of_noEsc (fuel : Nat) (l : List Char) (h : '\x1b' ∉ l) :
    stripCore fuel l = l := by
  induction fuel generalizing l with
  | zero => rfl
  | succ f ih =>
    cases l with
    | nil => rfl
    | cons c cs =>
      have hc : ¬ c = '\x1b' := by
        intro e
        exact h (by rw [e]; exact List.mem_cons_self _ _)
      have hcs : '\x1b' ∉ cs := fun m => h (List.mem_cons_of_mem c m)
      unfold stripCore
      rw [if_neg hc, ih cs hcs]

/-- Claim C4: for every measured duration (exact nanosecond count), a
sub-millisecond duration renders as round(d × 1000) microseconds with
zero decimals and matches the digits-μs pattern ; otherwise it renders
with exactly two decimal places and matches the digits-dot-two-digits-ms
pattern; at the boundary, 0.9999 ms renders in microseconds and 1.0 ms
in milliseconds. -/
theorem duration_format_spec (ns : Nat) :
    (ns < 1000000 →
      formatDuration ns = natStr ((ns + 500) / 1000) ++ "μs" ∧
      matchUs (formatDuration ns) = true) ∧
    (1000000 ≤ ns →
      formatDuration ns = natStr ((ns + 5000) / 10000 / 100) ++ "."
        ++ (⟨frac2 ((ns + 5000) / 10000 % 100)⟩ : String) ++ "ms" ∧
      matchMs (formatDuration ns) = true) ∧
    matchUs (formatDuration 999900) = true ∧
    matchMs (formatDuration 1000000) = true := by
  refine ⟨fun h => ⟨by simp [formatDuration, h], ?_⟩,
    fun h => ⟨by simp [formatDuration, Nat.not_lt.mpr h], ?_⟩, by decide, by decide⟩
  · rw [show formatDuration ns = natStr ((ns + 500) / 1000) ++ "μs" by simp [formatDuration, h]]
    exact matchUs_append _ (natDigits_digits _) (natDigits_ne_nil _)
  · rw [show formatDuration ns = natStr ((ns + 5000) / 10000 / 100) ++ "."
      ++ (⟨frac2 ((ns + 5000) / 10000 % 100)⟩ : String) ++ "ms" by
        simp [formatDuration, Nat.not_lt.mpr h]]
    exact matchMs_append _ _ _ (natDigits_digits _) (natDigits_ne_nil _)
      (digitCh_isDigit _) (digitCh_isDigit _)

/-- Witness for C4 at the concrete durations 500 ns and 2.5 ms. -/
theorem duration_format_spec_witness :
    (500 < 1000000 ∧ matchUs (formatDuration 500) = true) ∧
    (1000000 ≤ 2500000 ∧ matchMs (formatDuration 2500000) = true) :=
  ⟨⟨by decide, ((duration_format_spec 500).1 (by decide)).2⟩,
   ⟨by decide, ((duration_format_spec 2500000).2.1 (by decide)).2⟩⟩

/-- Claim C7 (counterexample): stripAnsi is not idempotent — stripping
the interleaved escape string ESC "[3" ESC "[0m" "m" once leaves
ESC "[3m", which a second pass strips entirely. -/
theorem stripAnsi_not_idempotent_cex :
    stripAnsi (stripAnsi "\x1b[3\x1b[0mm") ≠ stripAnsi "\x1b[3\x1b[0mm" := by
  decide

/-- Claim C7 (amended): stripAnsi is the identity on strings without the
escape character, hence idempotent on every input whose stripped output
contains no ESC — in particular on all built-in formatter output — but
a second pass can strip further tokens when escapes interleave. -/
theorem stripAnsi_idempotent_on_clean (s : String)
    (h : '\x1b' ∉ (stripAnsi s).data) :
    stripAnsi (stripAnsi s) = stripAnsi s :=
  congrArg String.mk (stripCore_of_noEsc _ _ h)

/-- Witness for the amended C7 on ordinary colourized formatter output. -/
theorem stripAnsi_idempotent_on_clean_witness :
    '\x1b' ∉ (stripAnsi "\x1b[32mhello\x1b[0m").data ∧
    stripAnsi (stripAnsi "\x1b[32mhello\x1b[0m") = stripAnsi "\x1b[32mhello\x1b[0m" :=
  ⟨by decide, stripAnsi_idempotent_on_clean _ (by decide)⟩

/-- Claim C1 (code bug): when the error code is VALIDATION but the error
message is not parseable JSON of the expected shape, onError falls out
of the validation branch without reaching the generic-exception branch
(which is chained as an `else`), so it emits no log at all and produces
no status or body — the spec requires exactly one error-level log.
Cases: a non-JSON message, a message that fails to parse, and a message
that parses to an object whose type is not "validation". -/
theorem onError_validation_malformed_silent :
    onError "VALIDATION" { message := some "boom" } "GET" "http://localhost/" none = {} ∧
    onError "VALIDATION" { message := some "\x7bnot json" } "GET" "http://localhost/" none = {} ∧
    onError "VALIDATION"
      { message := some "\x7bx", messageParse := some { typeField := some "other", errorsField := some [] } }
      "GET" "http://localhost/" none = {} := by
  refine ⟨by decide, by decide, by decide⟩

/-- Claim C2 (code bug): the pretty/console path of the Logger never
consults `enabled` or `level` — with `enabled: false` (default console
transport) `log` still writes a line, and `verbose` under `level:
"error"` still writes a line; only the pino (structured) path honours
the gate, as the third conjunct shows. -/
theorem logger_pretty_ignores_enabled_and_level :
    (Logger.log ⟨{ enabled := some false }, 7, "t"⟩ "hi" none).pretty ≠ [] ∧
    (Logger.verbose ⟨{ level := some PinoLevel.error }, 7, "t"⟩ "hi" none).pretty ≠ [] ∧
    (Logger.log ⟨{ enabled := some false, file := some "app.log" }, 7, "t"⟩ "hi" none).pino = [] := by
  refine ⟨by decide, by decide, by decide⟩

/-- Claim C3 (counterexample): with a file sink active, the structured
record emitted for a log call carries no `context` key at all — the
payload is only `\x7bmsg\x7d` — contradicting the claimed record shape
`\x7blevel, msg, context, trace?\x7d` with `context` the record's
context string. -/
theorem structured_record_lacks_context_field :
    ((Logger.log ⟨{ file := some "app.log" }, 1, "ts"⟩ "hello" (some "Ctx")).pino.map
      fun ev => (serializePayload ev.payload).lookup "context") = [none] := by
  decide

/-- Claim C3 (amended): when the json transport or a file sink is
active, nothing is written to the pretty stream and each leveled call
hands the pino backend exactly one payload — `\x7bmsg\x7d` for
log/warn/debug/verbose and `\x7bmsg, trace\x7d` for error — where msg
is the full display string with styling stripped and trimmed and no
context key is included; the backend's enabled/level gate then decides
whether the record is emitted, and the serialized error record carries
the trace key exactly when a trace was supplied. -/
theorem structured_record_shape_amended (lg : Logger) (m : String) (tr : Option String)
    (ctx : Option String) (h : structuredActive lg.options = true) :
    (lg.log m ctx).pretty = [] ∧
    (lg.log m ctx).pino = (if pinoGate lg.options PinoLevel.info then
      [⟨PinoLevel.info, [("msg", Pval.str (jsTrim (stripAnsi (lg.formatMessage "info" m ctx))))]⟩] else []) ∧
    (lg.warn m ctx).pino = (if pinoGate lg.options PinoLevel.warn then
      [⟨PinoLevel.warn, [("msg", Pval.str (jsTrim (stripAnsi (lg.formatMessage "warn" m ctx))))]⟩] else []) ∧
    (lg.debug m ctx).pino = (if pinoGate lg.options PinoLevel.debug then
      [⟨PinoLevel.debug, [("msg", Pval.str (jsTrim (stripAnsi (lg.formatMessage "debug" m ctx))))]⟩] else []) ∧
    (lg.verbose m ctx).pino = (if pinoGate lg.options PinoLevel.trace then
      [⟨PinoLevel.trace, [("msg", Pval.str (jsTrim (stripAnsi (lg.formatMessage "verbose" m ctx))))]⟩] else []) ∧
    (lg.error m tr ctx).pino = (if pinoGate lg.options PinoLevel.error then
      [⟨PinoLevel.error, [("msg", Pval.str (jsTrim (stripAnsi (lg.formatMessage "error" m ctx)))),
        ("trace", tr.elim Pval.undef Pval.str)]⟩] else []) ∧
    (∀ ev ∈ (lg.error m tr ctx).pino,
      serializePayload ev.payload
        = ("msg", Pval.str (jsTrim (stripAnsi (lg.formatMessage "error" m ctx))))
          :: (match tr with | some t => [("trace", Pval.str t)] | none => [])) := by
  refine ⟨by simp [Logger.log, h], by simp [Logger.log, h, pinoEmit],
    by simp [Logger.warn, h, pinoEmit], by simp [Logger.debug, h, pinoEmit],
    by simp [Logger.verbose, h, pinoEmit], by simp [Logger.error, h, pinoEmit], ?_⟩
  intro ev hev
  rw [show (lg.error m tr ctx).pino = pinoEmit lg.options PinoLevel.error
      [("msg", Pval.str (jsTrim (stripAnsi (lg.formatMessage "error" m ctx)))),
       ("trace", tr.elim Pval.undef Pval.str)] by simp [Logger.error, h]] at hev
  rw [pinoEmit] at hev
  by_cases hg : pinoGate lg.options PinoLevel.error
  · rw [if_pos hg] at hev
    rcases List.mem_singleton.mp hev with rfl
    cases tr <;> simp [serializePayload, Option.elim]
  · rw [if_neg hg] at hev
    exact absurd hev (List.not_mem_nil _)

/-- Witness for the amended C3: a concrete file-sink logger writes
nothing to the pretty stream. -/
theorem structured_record_shape_amended_witness :
    (Logger.log ⟨{ file := some "app.log" }, 1, "ts"⟩ "hello" none).pretty = [] :=
  (structured_record_shape_amended ⟨{ file := some "app.log" }, 1, "ts"⟩ "hello" none none
    (by decide)).1

/-- Claim C5: for every non-empty list of validation errors reaching the
validation branch, onError forces status 400, returns the structured
body with one detail per error and the pluralized message, and emits
exactly one warn log whose text pluralizes "error" exactly when N is
greater than one. -/
theorem validation_response_spec (errors : List VErr) (method url : String)
    (sp : Option String) (hne : errors ≠ []) :
    (onError "VALIDATION" { typeField := some "validation", errorsField := some errors }
        method url sp).status = some 400 ∧
    (onError "VALIDATION" { typeField := some "validation", errorsField := some errors }
        method url sp).body = some (ErrResponse.validation (buildValidationResponse errors)) ∧
    (buildValidationResponse errors).error = "Validation failed" ∧
    (buildValidationResponse errors).details.length = errors.length ∧
    (buildValidationResponse errors).message = "Request validation failed with "
      ++ natStr errors.length ++ " error" ++ (if errors.length > 1 then "s" else "") ∧
    (onError "VALIDATION" { typeField := some "validation", errorsField := some errors }
        method url sp).logs
      = [LogCall.warn (method ++ " " ++ resolvePathname sp url ++ " - Validation failed ("
          ++ natStr errors.length ++ " error" ++ (if errors.length > 1 then "s" else "") ++ "): "
          ++ formatValidationErrors errors) "ValidationError"] := by
  refine ⟨?_, ?_, rfl, by simp [buildValidationResponse], rfl, ?_⟩ <;>
    simp [onError, parseErrorObject, ParsedOrErr.typeField, ParsedOrErr.errorsField]

/-- Witness for C5 with the two-error scenario of the spec. -/
theorem validation_response_spec_witness :
    ([⟨"/email", none, "bad email", Jval.str "x"⟩, ⟨"/age", some "neg", "m", Jval.num (-5)⟩]
        : List VErr) ≠ [] ∧
    (buildValidationResponse
        [⟨"/email", none, "bad email", Jval.str "x"⟩, ⟨"/age", some "neg", "m", Jval.num (-5)⟩]).message
      = "Request validation failed with 2 errors" :=
  ⟨by decide, by
    have h := validation_response_spec
      [⟨"/email", none, "bad email", Jval.str "x"⟩, ⟨"/age", some "neg", "m", Jval.num (-5)⟩]
      "POST" "http://localhost/user" none (by decide)
    rw [h.2.2.2.2.1]
    decide⟩

/-- Claim C6: when the caught error is an HttpError instance and the
code is not VALIDATION, onError emits one warn log "METHOD path -
message" with context "HttpError", sets the error's status, and returns
its toJSON value; HttpError.NotFound("dd") yields status 404 and
message "dd". -/
theorem httpError_branch_spec (h : HttpError) (code method url : String) (sp : Option String)
    (hc : code ≠ "VALIDATION") :
    onError code (JsError.ofHttpError h) method url sp =
      { logs := [LogCall.warn (method ++ " " ++ resolvePathname sp url ++ " - " ++ h.message)
          "HttpError"]
        status := some h.status
        body := some (ErrResponse.http h.status h.message) } ∧
    HttpError.NotFound (some "dd") = { status := 404, message := "dd" } ∧
    (HttpError.NotFound (some "dd")).toJSON = (404, "dd") := by
  refine ⟨?_, rfl, rfl⟩
  simp [onError, hc, JsError.ofHttpError, HttpError.toJSON]

/-- Witness for C6: a handler throwing HttpError.NotFound("dd") under a
non-validation code produces the 404/"dd" response and the warn log. -/
theorem httpError_branch_spec_witness :
    ("NOT_FOUND" : String) ≠ "VALIDATION" ∧
    onError "NOT_FOUND" (JsError.ofHttpError (HttpError.NotFound (some "dd")))
        "GET" "http://localhost/a" none =
      { logs := [LogCall.warn "GET /a - dd" "HttpError"]
        status := some 404
        body := some (ErrResponse.http 404 "dd") } :=
  ⟨by decide, by
    have h := (httpError_branch_spec (HttpError.NotFound (some "dd")) "NOT_FOUND" "GET"
      "http://localhost/a" none (by decide)).1
    rw [h]
    decide⟩

theorem rmFirstSlashL_of_no_slash (l : List Char) (h : '/' ∉ l) : rmFirstSlashL l = l := by
  induction l with
  | nil => rfl
  | cons c cs ih =>
    have hc : ¬ c = '/' := by
      intro e
      exact h (by rw [e]; exact List.mem_cons_self _ _)
    rw [rmFirstSlashL, if_neg hc, ih fun m => h (List.mem_cons_of_mem c m)]

/-- Claim C8 (counterexample): a fieldPath with no leading separator is
not displayed unchanged — the entry with path "a/b" is displayed as
"ab", because the source removes the first '/' occurrence anywhere. -/
theorem field_display_changes_unslashed_path :
    ((buildValidationResponse [⟨"a/b", none, "m", Jval.null⟩]).details.map fun d => d.field)
      = ["ab"] ∧
    ("ab" : String) ≠ "a/b" := by
  refine ⟨by decide, by decide⟩

/-- Claim C8 (amended): in both the warn-log summary and the response
details the displayed field name is the entry's fieldPath with its
first '/' occurrence (wherever it is) removed; a path with a leading
separator therefore loses it, and a path containing no '/' at all is
displayed unchanged — but a path whose first '/' is interior loses that
interior separator instead. -/
theorem field_display_first_slash_removed (errors : List VErr) (p : String) :
    ((buildValidationResponse errors).details.map fun d => d.field)
      = errors.map (fun e => rmFirstSlash e.path) ∧
    formatValidationErrors errors
      = intercalateStr ", " (errors.map fun e => rmFirstSlash e.path ++ ": " ++ summaryOrMessage e) ∧
    (jsStartsWith p "/" = true → rmFirstSlash p = ⟨p.data.drop 1⟩) ∧
    ('/' ∉ p.data → rmFirstSlash p = p) := by
  refine ⟨by simp [buildValidationResponse], rfl, ?_, ?_⟩
  · intro hs
    cases hd : p.data with
    | nil => rw [jsStartsWith, hd] at hs; exact absurd hs (by decide)
    | cons c cs =>
      rw [jsStartsWith, hd] at hs
      rw [show ("/" : String).data = ['/'] from rfl] at hs
      rw [startsWithL, Bool.and_eq_true] at hs
      have hc : c = '/' := of_decide_eq_true hs.1
      rw [rmFirstSlash, hd, hc, rmFirstSlashL]
      simp
  · intro hns
    rw [rmFirstSlash, rmFirstSlashL_of_no_slash p.data hns]

/-- Witness for the amended C8 on the paths "/email" (leading slash
dropped) and "email" (no slash, unchanged). -/
theorem field_display_first_slash_removed_witness :
    jsStartsWith "/email" "/" = true ∧
    rmFirstSlash "/email" = (⟨("/email" : String).data.drop 1⟩ : String) ∧
    '/' ∉ ("email" : String).data ∧
    rmFirstSlash "email" = "email" :=
  ⟨by decide,
   (field_display_first_slash_removed [] "/email").2.2.1 (by decide),
   by decide,
   (field_display_first_slash_removed [] "email").2.2.2 (by decide)⟩

/-- Claim C9: with logDetails unset or false the completion log never
carries a details suffix — the details string is empty and two
after-handle invocations that differ only in query parameters, path
parameters or body (same method, resolved path, start mark and request
id) emit identical log calls. -/
theorem logDetails_off_no_serialization (o : LoggerOptions) (c1 c2 : AfterCtx) (now : Nat)
    (hd : o.logDetails ≠ some true)
    (hm : c1.method = c2.method)
    (hp : resolvePathname c1.storePathname c1.url = resolvePathname c2.storePathname c2.url)
    (hs : c1.start = c2.start)
    (hr : c1.requestId = c2.requestId) :
    detailsString o c1 = "" ∧
    onAfterHandle o c1 now = onAfterHandle o c2 now := by
  have hds1 : detailsString o c1 = "" := by simp [detailsString, hd]
  have hds2 : detailsString o c2 = "" := by simp [detailsString, hd]
  refine ⟨hds1, ?_⟩
  rw [onAfterHandle, onAfterHandle, hds1, hds2, hm, hp, hs, hr]

/-- Witness for C9: two concrete requests to the same route differing in
query and body produce the same completion log with no suffix. -/
theorem logDetails_off_no_serialization_witness :
    (({} : LoggerOptions).logDetails ≠ some true ∧
      detailsString {}
        ⟨"GET", "http://h/p?a=1", none, some 100, none, [], some (Jval.str "x")⟩ = "") ∧
    onAfterHandle {}
        ⟨"GET", "http://h/p?a=1", none, some 100, none, [], some (Jval.str "x")⟩ 600100
      = onAfterHandle {} ⟨"GET", "http://h/p?b=2", none, some 100, none, [], none⟩ 600100 := by
  have h := logDetails_off_no_serialization {}
    ⟨"GET", "http://h/p?a=1", none, some 100, none, [], some (Jval.str "x")⟩
    ⟨"GET", "http://h/p?b=2", none, some 100, none, [], none⟩ 600100
    (by decide) (by decide) (by decide) (by decide) (by decide)
  exact ⟨⟨by decide, h.1⟩, h.2⟩

/-- Claim C10: the correlation id exists only when logRequestId is
exactly true — for any other value (including unset, despite the
declared default) derive yields no id and neither the start log nor the
completion log carries a bracketed prefix; when it is exactly true both
logs are prefixed with the first 8 characters of the same UUID. -/
theorem requestId_iff_option_true (o : LoggerOptions) (uuid method url : String)
    (ctx : AfterCtx) (now : Nat) (hctx : ctx.requestId = deriveRequestId o uuid) :
    (o.logRequestId ≠ some true →
      deriveRequestId o uuid = none ∧
      (∀ lc, onRequest o (deriveRequestId o uuid) method url = some lc →
        lc = LogCall.info (method ++ " " ++ getPathname url) (strOr o.context "Router")) ∧
      (∀ lc, onAfterHandle o ctx now = some lc →
        lc = LogCall.info (ctx.method ++ " " ++ resolvePathname ctx.storePathname ctx.url ++ " "
            ++ pcYellow ("+" ++ formatDuration (now - ctx.start.getD 0)) ++ detailsString o ctx)
          (strOr o.context "Router"))) ∧
    (o.logRequestId = some true → uuid.data ≠ [] →
      deriveRequestId o uuid = some uuid ∧
      (∀ lc, onRequest o (deriveRequestId o uuid) method url = some lc →
        lc = LogCall.info ("[" ++ jsTake uuid 8 ++ "] " ++ method ++ " " ++ getPathname url)
          (strOr o.context "Router")) ∧
      (∀ lc, onAfterHandle o ctx now = some lc →
        lc = LogCall.info ("[" ++ jsTake uuid 8 ++ "] " ++ ctx.method ++ " "
            ++ resolvePathname ctx.storePathname ctx.url ++ " "
            ++ pcYellow ("+" ++ formatDuration (now - ctx.start.getD 0)) ++ detailsString o ctx)
          (strOr o.context "Router"))) := by
  constructor
  · intro h
    have hid : deriveRequestId o uuid = none := by simp [deriveRequestId, h]
    have hri : requestInfo (deriveRequestId o uuid) = "" := by rw [hid]; rfl
    refine ⟨hid, ?_, ?_⟩
    · intro lc hlc
      rw [onRequest] at hlc
      by_cases hg : o.autoLogging ≠ some false ∧ o.logRequestStart ≠ some false
      · rw [if_pos hg, Option.some_inj] at hlc
        rw [← hlc, hri, String.empty_append]
      · rw [if_neg hg] at hlc
        cases hlc
    · intro lc hlc
      rw [onAfterHandle] at hlc
      by_cases hg : o.autoLogging = some false ∨ !startTruthy ctx.start
      · rw [if_pos hg] at hlc
        cases hlc
      · rw [if_neg hg] at hlc
        simp only [Option.some_inj] at hlc
        rw [← hlc, hctx, hri, String.empty_append]
  · intro h hu
    have hid : deriveRequestId o uuid = some uuid := by simp [deriveRequestId, h]
    have hri : requestInfo (deriveRequestId o uuid) = "[" ++ jsTake uuid 8 ++ "] " := by
      rw [hid, requestInfo]
      simp [hu]
    refine ⟨hid, ?_, ?_⟩
    · intro lc hlc
      rw [onRequest] at hlc
      by_cases hg : o.autoLogging ≠ some false ∧ o.logRequestStart ≠ some false
      · rw [if_pos hg, Option.some_inj] at hlc
        rw [← hlc, hri]
      · rw [if_neg hg] at hlc
        cases hlc
    · intro lc hlc
      rw [onAfterHandle] at hlc
      by_cases hg : o.autoLogging = some false ∨ !startTruthy ctx.start
      · rw [if_pos hg] at hlc
        cases hlc
      · rw [if_neg hg] at hlc
        simp only [Option.some_inj] at hlc
        rw [← hlc, hctx, hri]

/-- Witness for C10 under both settings of logRequestId. -/
theorem requestId_iff_option_true_witness :
    deriveRequestId {} "123e4567-e89b-12d3-a456-426614174000" = none ∧
    deriveRequestId { logRequestId := some true } "123e4567-e89b-12d3-a456-426614174000"
      = some "123e4567-e89b-12d3-a456-426614174000" := by
  have h1 := (requestId_iff_option_true {} "123e4567-e89b-12d3-a456-426614174000" "GET"
    "http://h/p" ⟨"GET", "http://h/p", none, none, none, [], none⟩ 0 (by decide)).1 (by decide)
  have h2 := (requestId_iff_option_true { logRequestId := some true }
    "123e4567-e89b-12d3-a456-426614174000" "GET" "http://h/p"
    ⟨"GET", "http://h/p", none, none, some "123e4567-e89b-12d3-a456-426614174000", [], none⟩
    0 (by decide)).2 (by decide) (by decide)
  exact ⟨h1.1, h2.1⟩
